import Mathlib

/-!
Shallow embedding of the `boj-i-solved` crawler (package `boj_crawler`:
`crawler.py` and `batch.py`) in Lean 4, together with theorems settling the
frozen claims about it.

Modelling conventions:

* Python `datetime` values are records of numeric fields.  A submission-time
  string is represented by its `datetime.strptime(s, "%Y-%m-%d %H:%M:%S")`
  outcome: `some dt` when the string is well-formed (with `dt` its parse) and
  `none` when it is malformed (strptime raises `ValueError`, which the code
  catches).  This is the standard Option-embedding of fallible parsing.
* The `strftime("%Y%m")` / `strftime("%Y-%m")` month keys are zero-padded
  digit strings of fixed length; Python's string comparison on them coincides
  with numeric comparison, so they are represented by the number
  `year * 100 + month`.
* Python `date` comparison compares `(year, month, day)` lexicographically;
  `Date.pyLt` is exactly that comparison.
* HTML structure is represented by the fields the code reads: a row is its
  list of `<td>` cells; a cell has its text and optionally its first `<a>`
  child, whose `title` attribute (with `""` default, stripped) is carried both
  as the string and, for the submission-time column, as its strptime outcome.
* Exceptions caught by the code are modelled by the `Option`/sum branches the
  catch handlers produce; `time.sleep` and the page fetches are instrumented
  as counts/events so that claims about "no further pages fetched" and
  "delay between attempts" are statable.
-/

/-- The date part of a Python `datetime` (`datetime.date()`). -/
structure Date where
  year : Nat
  month : Nat
  day : Nat
deriving Repr, DecidableEq

/-- Python `date` comparison `a < b`: lexicographic on `(year, month, day)`. -/
def Date.pyLt (a b : Date) : Bool :=
  a.year < b.year ||
    (a.year == b.year &&
      (a.month < b.month || (a.month == b.month && a.day < b.day)))

/-- Python `date` comparison `a <= b`. -/
def Date.pyLe (a b : Date) : Bool :=
  a.pyLt b || a == b

/-- A parsed Python `datetime` as produced by
`datetime.strptime(s, "%Y-%m-%d %H:%M:%S")`. -/
structure PyDateTime where
  year : Nat
  month : Nat
  day : Nat
  hour : Nat
  minute : Nat
  second : Nat
deriving Repr, DecidableEq

/-- Python `dt.date()`. -/
def PyDateTime.date (dt : PyDateTime) : Date :=
  ⟨dt.year, dt.month, dt.day⟩

/-- The month key `dt.strftime("%Y%m")` (also `"%Y-%m"`), represented by its
numeric value `year * 100 + month`; equality and `<` of the zero-padded digit
strings agree with `=` and `<` on these numbers. -/
def PyDateTime.yyyymm (dt : PyDateTime) : Nat :=
  dt.year * 100 + dt.month

/-- A submission-time string, represented by its strptime outcome:
`some dt` for a well-formed `"YYYY-MM-DD HH:MM:SS"` string, `none` for a
malformed one (strptime raises `ValueError`). -/
abbrev TS := Option PyDateTime

/-- The filter state a `BOJCrawler` holds after `__init__`:
`start_datetime`/`end_datetime` are `_parse_yymmdd_date(start_date)` /
`_parse_yymmdd_date(end_date)` (or `None`), `target_month` is the legacy
`YYYYMM` month filter (numeric representation of the string, `none` for
`None`/empty), and `start_given`/`end_given` record the truthiness of the raw
`start_date`/`end_date` strings, which `should_include_submission` tests. -/
structure BOJCrawler where
  start_datetime : Option Date
  end_datetime : Option Date
  target_month : Option Nat
  start_given : Bool
  end_given : Bool
deriving Repr, DecidableEq

/-- `BOJCrawler.is_in_date_range`: parse the submission time (malformed →
`ValueError` → `False`), then reject if before `start_datetime.date()` or
after `end_datetime.date()`; otherwise accept. -/
def BOJCrawler.is_in_date_range (c : BOJCrawler) (submission_time : TS) : Bool :=
  match submission_time with
  | none => false
  | some dt =>
    let submission_date := dt.date
    if (match c.start_datetime with
        | some s => submission_date.pyLt s
        | none => false) then false
    else if (match c.end_datetime with
        | some e => e.pyLt submission_date
        | none => false) then false
    else true

/-- `BOJCrawler.is_target_month`: with no `target_month` configured it returns
`True` before ever parsing; otherwise a malformed time gives `False` and a
well-formed one is compared by its `"%Y%m"` key. -/
def BOJCrawler.is_target_month (c : BOJCrawler) (submission_time : TS) : Bool :=
  match c.target_month with
  | none => true
  | some m =>
    match submission_time with
    | none => false
    | some dt => dt.yyyymm == m

/-- `BOJCrawler.is_before_date_range`: malformed time → `False`; otherwise
`True` if a start date is configured and the submission date precedes it,
else (legacy) the `"%Y%m"` key is compared against `target_month` when that
is configured, else `False`. -/
def BOJCrawler.is_before_date_range (c : BOJCrawler) (submission_time : TS) : Bool :=
  match submission_time with
  | none => false
  | some dt =>
    if (match c.start_datetime with
        | some s => dt.date.pyLt s
        | none => false) then true
    else
      match c.target_month with
      | some m => decide (dt.yyyymm < m)
      | none => false

/-- `BOJCrawler.should_include_submission`: date-range filtering when a raw
`start_date` or `end_date` string was given, legacy month filtering
otherwise. -/
def BOJCrawler.should_include_submission (c : BOJCrawler) (submission_time : TS) : Bool :=
  if c.start_given || c.end_given then c.is_in_date_range submission_time
  else c.is_target_month submission_time

/-- A crawler configured with only the legacy month filter `m`. -/
def monthOnlyCrawler (m : Nat) : BOJCrawler :=
  ⟨none, none, some m, false, false⟩

/-- A crawler configured with only a date-range filter (optional start and
end); the truthiness flags match the presence of the bounds. -/
def rangeOnlyCrawler (s e : Option Date) : BOJCrawler :=
  ⟨s, e, none, s.isSome, e.isSome⟩

/-- A crawler with no filter configured at all. -/
def noFilterCrawler : BOJCrawler :=
  ⟨none, none, none, false, false⟩

/-- Key fact about Python date comparison: `a < b` is false exactly when
`b <= a`. -/
theorem Date.pyLt_eq_false_iff (a b : Date) :
    a.pyLt b = false ↔ b.pyLe a = true := by
  rcases a with ⟨y1, m1, d1⟩
  rcases b with ⟨y2, m2, d2⟩
  simp [Date.pyLt, Date.pyLe, Date.mk.injEq]
  omega

/-- Strictness of Python date comparison. -/
theorem Date.pyLt_irrefl (a : Date) : a.pyLt a = false := by
  rcases a with ⟨y, m, d⟩
  simp [Date.pyLt]

/-- Boolean form of totality: `a < b` is the negation of `b <= a`. -/
theorem Date.pyLt_eq_not_pyLe (a b : Date) : a.pyLt b = !(b.pyLe a) := by
  rw [Bool.eq_iff_iff]
  rcases a with ⟨y1, m1, d1⟩
  rcases b with ⟨y2, m2, d2⟩
  simp [Date.pyLt, Date.pyLe, Date.mk.injEq]
  omega

/-- C2. Month-filter semantics: with only a month filter `m` configured,
a well-formed timestamp is included iff its year-month truncation equals `m`,
and `is_before_date_range` holds iff its year-month truncation is strictly
below `m`. -/
theorem month_filter_semantics (m : Nat) (dt : PyDateTime) :
    ((monthOnlyCrawler m).should_include_submission (some dt) = true ↔
      dt.yyyymm = m)
    ∧ ((monthOnlyCrawler m).is_before_date_range (some dt) = true ↔
      dt.yyyymm < m) := by
  constructor
  · simp [monthOnlyCrawler, BOJCrawler.should_include_submission,
      BOJCrawler.is_target_month]
  · simp [monthOnlyCrawler, BOJCrawler.is_before_date_range]

/-- C3. Date-range-filter semantics: with only a date-range filter (optional
start `s`, optional end `e`) configured, a well-formed timestamp is included
iff its date lies inclusively between the present bounds (an absent bound is
unbounded), and `is_before_date_range` holds iff a start bound is present and
the date strictly precedes it; an end bound alone never triggers it. -/
theorem range_filter_semantics (s e : Option Date) (dt : PyDateTime) :
    ((rangeOnlyCrawler s e).should_include_submission (some dt) = true ↔
      (∀ sd ∈ s, sd.pyLe dt.date = true) ∧ (∀ ed ∈ e, dt.date.pyLe ed = true))
    ∧ ((rangeOnlyCrawler s e).is_before_date_range (some dt) = true ↔
      ∃ sd, s = some sd ∧ dt.date.pyLt sd = true) := by
  constructor
  · rcases s with _ | sd <;> rcases e with _ | ed <;>
      simp [rangeOnlyCrawler, BOJCrawler.should_include_submission,
        BOJCrawler.is_in_date_range, BOJCrawler.is_target_month,
        Date.pyLt_eq_not_pyLe]
  · rcases s with _ | sd <;>
      simp [rangeOnlyCrawler, BOJCrawler.is_before_date_range]

/-- C4 counterexample: with no filter configured at all (no start date, no
end date, no month filter) and a malformed timestamp, the code returns `True`
from `should_include_submission` (the `target_month` check short-circuits
before parsing), contradicting the claim that it is `false` for every filter
configuration. -/
theorem parse_failure_counterexample :
    noFilterCrawler.should_include_submission none = true := by rfl

/-- C4 amended: for every crawler with at least one filter active (a month
filter, or a raw start/end date string given), `should_include_submission` of
a malformed timestamp is `false`; and for every crawler whatsoever
`is_before_date_range` of a malformed timestamp is `false`. -/
theorem parse_failure_behaviour (c : BOJCrawler)
    (h : c.target_month.isSome = true ∨ c.start_given = true ∨ c.end_given = true) :
    c.should_include_submission none = false ∧
      c.is_before_date_range none = false := by
  refine ⟨?_, rfl⟩
  unfold BOJCrawler.should_include_submission
  rcases hs : c.start_given with _ | _ <;> rcases he : c.end_given with _ | _ <;>
    simp_all [BOJCrawler.is_in_date_range]
  rcases ht : c.target_month with _ | m
  · simp [ht] at h
  · simp [BOJCrawler.is_target_month, ht]

/-- C4 amended, witness at a concrete input: the month-filter-only crawler on
a malformed timestamp. -/
theorem parse_failure_behaviour_witness :
    (monthOnlyCrawler 202401).target_month.isSome = true ∧
      ((monthOnlyCrawler 202401).should_include_submission none = false ∧
        (monthOnlyCrawler 202401).is_before_date_range none = false) :=
  ⟨by decide, parse_failure_behaviour (monthOnlyCrawler 202401) (Or.inl (by decide))⟩

/-- Configurations with at most one filtering mode: either no date-range
state at all (month filter alone, or nothing), or no month filter with the
truthiness flags matching the parsed bounds (date-range filter alone, or
nothing). -/
def BOJCrawler.atMostOneFilterMode (c : BOJCrawler) : Prop :=
  (c.start_datetime = none ∧ c.end_datetime = none ∧
    c.start_given = false ∧ c.end_given = false)
  ∨ (c.target_month = none ∧ c.start_given = c.start_datetime.isSome ∧
    c.end_given = c.end_datetime.isSome)

instance (c : BOJCrawler) : Decidable c.atMostOneFilterMode := by
  unfold BOJCrawler.atMostOneFilterMode; infer_instance

/-- C10. Under a single filtering mode, the early-stop predicate and the
inclusion predicate are mutually exclusive: no timestamp both triggers
`is_before_date_range` and passes `should_include_submission`. -/
theorem stop_include_exclusive (c : BOJCrawler) (ts : TS)
    (h : c.atMostOneFilterMode) :
    ¬(c.is_before_date_range ts = true ∧ c.should_include_submission ts = true) := by
  rintro ⟨hb, hi⟩
  rcases ts with _ | dt
  · simp [BOJCrawler.is_before_date_range] at hb
  rcases h with ⟨h1, h2, h3, h4⟩ | ⟨h1, h2, h3⟩
  · rcases ht : c.target_month with _ | m
    · simp [BOJCrawler.is_before_date_range, h1, ht] at hb
    · simp [BOJCrawler.is_before_date_range, h1, ht] at hb
      simp [BOJCrawler.should_include_submission, h3, h4,
        BOJCrawler.is_target_month, ht] at hi
      omega
  · rcases hsd : c.start_datetime with _ | sd
    · simp [BOJCrawler.is_before_date_range, hsd, h1] at hb
    · simp [BOJCrawler.is_before_date_range, hsd, h1] at hb
      simp [BOJCrawler.should_include_submission, h2, hsd,
        BOJCrawler.is_in_date_range, hb] at hi

/-- C10 witness at a concrete input: a range-only crawler and a timestamp
strictly before its start bound. -/
theorem stop_include_exclusive_witness :
    (rangeOnlyCrawler (some ⟨2024, 3, 15⟩) none).atMostOneFilterMode ∧
      ¬((rangeOnlyCrawler (some ⟨2024, 3, 15⟩) none).is_before_date_range
          (some ⟨2024, 3, 14, 0, 0, 0⟩) = true ∧
        (rangeOnlyCrawler (some ⟨2024, 3, 15⟩) none).should_include_submission
          (some ⟨2024, 3, 14, 0, 0, 0⟩) = true) :=
  ⟨by decide, stop_include_exclusive _ _ (by decide)⟩

/-- The first `<a>` element of a table cell, as the code reads it: its
`title` attribute with default `""`, stripped (`title`), and — for the
submission-time column — the strptime outcome of that string (`ts`). -/
structure CellLink where
  title : String
  ts : TS
deriving Repr, DecidableEq

/-- One `<td>` cell of a results row: its text (stripped) and its first `<a>`
child, `none` when the cell has no link (so `find("a")` returns `None` and
the subsequent attribute access raises). -/
structure Cell where
  text : String
  link : Option CellLink
deriving Repr, DecidableEq

/-- One `<tr>` row, as the list of its `<td>` cells (`row.find_all("td")`). -/
abbrev Row := List Cell

/-- The record built for one accepted submission row. -/
structure Problem where
  submission_id : String
  problem_id : String
  problem_title : String
  language : String
  submission_time : TS
deriving Repr, DecidableEq

/-- Outcome of the per-row body of the crawl loop: the row is skipped (short
row, a caught per-row exception, or a filtered-out submission), triggers the
early stop, or yields a record. -/
inductive RowStep where
  | skip
  | stop
  | keep (p : Problem)
deriving Repr, DecidableEq

/-- The body of the row loop in `get_solved_problems` (lines 185–210 of
`crawler.py`): rows with fewer than 6 cells are ignored; reading
`cols[8].find("a")` raises (`IndexError`/`AttributeError`, caught, row
skipped) when column 8 or its link is missing; then the early-stop and
inclusion filters run on the submission time; finally the record is built,
where a missing link in column 2 again raises and skips the row. -/
def BOJCrawler.rowStep (c : BOJCrawler) (row : Row) : RowStep :=
  if row.length < 6 then .skip
  else
    match row[8]? with
    | none => .skip
    | some c8 =>
      match c8.link with
      | none => .skip
      | some l8 =>
        if c.is_before_date_range l8.ts then .stop
        else if !c.should_include_submission l8.ts then .skip
        else
          match row[0]?, row[2]?, row[6]? with
          | some c0, some c2, some c6 =>
            (match c2.link with
            | none => .skip
            | some l2 => .keep ⟨c0.text, c2.text, l2.title, c6.text, l8.ts⟩)
          | _, _, _ => .skip

/-- The row loop over one page's rows: collects the kept records in order
and reports whether the stop condition fired (`stop_crawling`), in which
case the remaining rows are not visited. -/
def BOJCrawler.processRows (c : BOJCrawler) : List Row → List Problem × Bool
  | [] => ([], false)
  | row :: rest =>
    match c.rowStep row with
    | .stop => ([], true)
    | .skip => c.processRows rest
    | .keep p =>
      let r := c.processRows rest
      (p :: r.1, r.2)

/-- Outcome of fetching and parsing one status page: the fetch raised
(`requests` exception, including retry exhaustion), or an HTML page whose
status table is present or missing, with or without a `next_page` link. -/
inductive PageResult where
  | fetchErr
  | page (table : Option (List Row)) (hasNext : Bool)
deriving Repr, DecidableEq

/-- `BOJCrawler.get_solved_problems` over the sequence of page-fetch
outcomes, instrumented with the number of pages fetched (iterations of the
`while` loop that performed a request).  A fetch error or a missing status
table breaks out of the loop, returning what was accumulated; a fired stop
condition appends the current page's accepted prefix and breaks; otherwise
the crawl continues exactly when a next-page link exists.  The function is
total: no outcome raises past this boundary. -/
def BOJCrawler.get_solved_problems (c : BOJCrawler) : List PageResult → List Problem × Nat
  | [] => ([], 0)
  | .fetchErr :: _ => ([], 1)
  | .page none _ :: _ => ([], 1)
  | .page (some table) hasNext :: rest =>
    let pr := c.processRows (table.drop 1)
    if pr.2 then (pr.1, 1)
    else if hasNext then
      let tail := c.get_solved_problems rest
      (pr.1 ++ tail.1, 1 + tail.2)
    else (pr.1, 1)

/-- Rows of a page that the crawler accepts (pass the filters and parse into
a record), in page order. -/
def BOJCrawler.acceptedRows (c : BOJCrawler) (rows : List Row) : List Problem :=
  rows.filterMap (fun r =>
    match c.rowStep r with
    | .keep p => some p
    | _ => none)

/-- Row loop on a stop-free list of rows: every row contributes
independently and the stop flag stays down. -/
theorem BOJCrawler.processRows_of_no_stop (c : BOJCrawler) (rows : List Row)
    (h : ∀ r ∈ rows, c.rowStep r ≠ .stop) :
    c.processRows rows = (c.acceptedRows rows, false) := by
  induction rows with
  | nil => rfl
  | cons row rest ih =>
    have hrow := h row (List.mem_cons_self row rest)
    have hrest := ih (fun r hr => h r (List.mem_cons_of_mem row hr))
    cases hstep : c.rowStep row with
    | stop => exact absurd hstep hrow
    | skip => simp [BOJCrawler.processRows, BOJCrawler.acceptedRows, hstep, hrest]
    | keep p => simp [BOJCrawler.processRows, BOJCrawler.acceptedRows, hstep, hrest]

/-- Row loop on a list whose first stop row splits it: the rows before the
first stop contribute their accepted records, the stop row raises the flag,
and nothing after it is visited. -/
theorem BOJCrawler.processRows_stop_split (c : BOJCrawler)
    (pre post : List Row) (srow : Row)
    (hpre : ∀ r ∈ pre, c.rowStep r ≠ .stop)
    (hstop : c.rowStep srow = .stop) :
    c.processRows (pre ++ srow :: post) = (c.acceptedRows pre, true) := by
  induction pre with
  | nil => simp [BOJCrawler.processRows, BOJCrawler.acceptedRows, hstop]
  | cons row rest ih =>
    have hrow := hpre row (List.mem_cons_self row rest)
    have hrest := ih (fun r hr => hpre r (List.mem_cons_of_mem row hr))
    cases hstep : c.rowStep row with
    | stop => exact absurd hstep hrow
    | skip => simp [BOJCrawler.processRows, BOJCrawler.acceptedRows, hstep, hrest]
    | keep p => simp [BOJCrawler.processRows, BOJCrawler.acceptedRows, hstep, hrest]

/-- C1. Early-stop invariant of the crawl loop: if the fully scanned earlier
pages contain no stop row and the current page's body splits as
`pre ++ srow :: post` with `srow` the first row whose timestamp satisfies
`is_before_date_range`, then the crawl returns exactly the accepted rows of
the earlier pages followed by the accepted prefix `pre` of the current page —
nothing from `post` — and fetches exactly the earlier pages plus the current
one, never touching the remaining page sequence `rest`. -/
theorem early_stop_invariant (c : BOJCrawler)
    (tables : List (List Row)) (stopTable : List Row)
    (pre post : List Row) (srow : Row) (hasNext : Bool) (rest : List PageResult)
    (htables : ∀ t ∈ tables, ∀ r ∈ t.drop 1, c.rowStep r ≠ .stop)
    (hsplit : stopTable.drop 1 = pre ++ srow :: post)
    (hpre : ∀ r ∈ pre, c.rowStep r ≠ .stop)
    (hstop : c.rowStep srow = .stop) :
    c.get_solved_problems
        (tables.map (fun t => .page (some t) true) ++
          .page (some stopTable) hasNext :: rest)
      = ((tables.map (fun t => c.acceptedRows (t.drop 1))).flatten ++
          c.acceptedRows pre,
        tables.length + 1) := by
  induction tables with
  | nil =>
    simp [BOJCrawler.get_solved_problems, hsplit,
      c.processRows_stop_split pre post srow hpre hstop]
  | cons t ts ih =>
    have ht := htables t (List.mem_cons_self t ts)
    have hts := ih (fun t' ht' => htables t' (List.mem_cons_of_mem t ht'))
    simp only [List.map_cons, List.cons_append, BOJCrawler.get_solved_problems,
      c.processRows_of_no_stop (t.drop 1) ht]
    simp [hts, List.append_assoc, Prod.ext_iff]
    omega

/-- C7. Crawl-boundary error containment: `get_solved_problems` is a total
function of the page outcomes (no outcome raises past it), and when the
page at position `tables.length` either fails to fetch or has no status
table, the loop breaks there: the result is exactly the records accumulated
from the earlier pages, and no page beyond the failing one is fetched. -/
theorem crawl_error_containment (c : BOJCrawler)
    (tables : List (List Row)) (bad : PageResult) (rest : List PageResult)
    (htables : ∀ t ∈ tables, ∀ r ∈ t.drop 1, c.rowStep r ≠ .stop)
    (hbad : bad = .fetchErr ∨ ∃ hn, bad = .page none hn) :
    c.get_solved_problems (tables.map (fun t => .page (some t) true) ++ bad :: rest)
      = ((tables.map (fun t => c.acceptedRows (t.drop 1))).flatten,
        tables.length + 1) := by
  induction tables with
  | nil =>
    rcases hbad with h | ⟨hn, h⟩ <;> subst h <;>
      simp [BOJCrawler.get_solved_problems]
  | cons t ts ih =>
    have ht := htables t (List.mem_cons_self t ts)
    have hts := ih (fun t' ht' => htables t' (List.mem_cons_of_mem t ht'))
    simp only [List.map_cons, List.cons_append, BOJCrawler.get_solved_problems,
      c.processRows_of_no_stop (t.drop 1) ht]
    simp [hts, Prod.ext_iff]
    omega

/-- Pure extraction of one results row, with the filters out of the picture:
`none` when the row is short or an expected sub-element is missing (the code
skips it), otherwise the record read off columns 0, 2, 6 and 8. -/
def extractRow (row : Row) : Option Problem :=
  if row.length < 6 then none
  else
    match row[8]? with
    | none => none
    | some c8 =>
      match c8.link with
      | none => none
      | some l8 =>
        match row[0]?, row[2]?, row[6]? with
        | some c0, some c2, some c6 =>
          (match c2.link with
          | none => none
          | some l2 => some ⟨c0.text, c2.text, l2.title, c6.text, l8.ts⟩)
        | _, _, _ => none

/-- Crawler configurations whose filters are inactive: no parsed start date,
no month filter, and no raw date-range strings given. -/
def BOJCrawler.unfiltered (c : BOJCrawler) : Prop :=
  c.start_datetime = none ∧ c.target_month = none ∧
    c.start_given = false ∧ c.end_given = false

instance (c : BOJCrawler) : Decidable c.unfiltered := by
  unfold BOJCrawler.unfiltered; infer_instance

/-- With inactive filters, the row-loop body is exactly the pure extraction:
it keeps what `extractRow` parses and skips the rest, and never stops. -/
theorem BOJCrawler.rowStep_unfiltered (c : BOJCrawler) (hc : c.unfiltered)
    (row : Row) :
    c.rowStep row = (match extractRow row with
      | some p => RowStep.keep p
      | none => RowStep.skip) := by
  obtain ⟨h1, h2, h3, h4⟩ := hc
  have hb : ∀ ts : TS, c.is_before_date_range ts = false := by
    intro ts
    cases ts <;> simp [BOJCrawler.is_before_date_range, h1, h2]
  have hi : ∀ ts : TS, c.should_include_submission ts = true := by
    intro ts
    simp [BOJCrawler.should_include_submission, h3, h4,
      BOJCrawler.is_target_month, h2]
  by_cases hlen : row.length < 6
  · simp [BOJCrawler.rowStep, extractRow, hlen]
  · cases h8 : row[8]? with
    | none => simp [BOJCrawler.rowStep, extractRow, hlen, h8]
    | some c8 =>
      cases hl8 : c8.link with
      | none => simp [BOJCrawler.rowStep, extractRow, hlen, h8, hl8]
      | some l8 =>
        cases h0 : row[0]? with
        | none => simp [BOJCrawler.rowStep, extractRow, hlen, h8, hl8, hb, hi, h0]
        | some c0 =>
          cases h2c : row[2]? with
          | none =>
            simp [BOJCrawler.rowStep, extractRow, hlen, h8, hl8, hb, hi, h0, h2c]
          | some c2 =>
            cases h6c : row[6]? with
            | none =>
              simp [BOJCrawler.rowStep, extractRow, hlen, h8, hl8, hb, hi,
                h0, h2c, h6c]
            | some c6 =>
              cases hl2 : c2.link <;>
                simp [BOJCrawler.rowStep, extractRow, hlen, h8, hl8, hb, hi,
                  h0, h2c, h6c, hl2]

/-- C6. Row extraction: on a single fetched page with its status table
present and the filters inactive, the crawl of that page skips the header
row and then extracts each remaining row independently via `extractRow`
(one bad row never affects another); a row with fewer than 6 columns yields
nothing; and a row whose columns 0, 2, 6, 8 exist with links in columns 2
and 8 yields exactly the record of its texts, the column-2 link title, and
the column-8 link title's timestamp. -/
theorem row_extraction (c : BOJCrawler) (hc : c.unfiltered)
    (table : List Row) (hasNext : Bool) :
    c.get_solved_problems [.page (some table) hasNext]
        = ((table.drop 1).filterMap extractRow, 1)
    ∧ (∀ row : Row, row.length < 6 → extractRow row = none)
    ∧ (∀ (row : Row) (c0 c2 c6c c8 : Cell) (l2 l8 : CellLink),
        6 ≤ row.length →
        row[0]? = some c0 → row[2]? = some c2 → row[6]? = some c6c →
        row[8]? = some c8 → c2.link = some l2 → c8.link = some l8 →
        extractRow row = some ⟨c0.text, c2.text, l2.title, c6c.text, l8.ts⟩) := by
  refine ⟨?_, ?_, ?_⟩
  · have hns : ∀ r ∈ table.tail, c.rowStep r ≠ RowStep.stop := by
      intro r _
      rw [c.rowStep_unfiltered hc r]
      cases extractRow r <;> simp
    have hacc : c.acceptedRows table.tail = table.tail.filterMap extractRow := by
      unfold BOJCrawler.acceptedRows
      apply List.filterMap_congr
      intro r _
      rw [c.rowStep_unfiltered hc r]
      cases extractRow r <;> rfl
    cases hasNext <;>
      simp [BOJCrawler.get_solved_problems, List.drop_one,
        c.processRows_of_no_stop table.tail hns, hacc]
  · intro row h
    simp [extractRow, h]
  · intro row c0 c2 c6c c8 l2 l8 hlen h0 h2c h6c h8 hl2 hl8
    have : ¬(row.length < 6) := by omega
    simp [extractRow, this, h0, h2c, h6c, h8, hl2, hl8]

/-- Sample header row for witnesses. -/
def wHeader : Row := [⟨"No.", none⟩]

/-- Sample well-formed January-2024 submission time. -/
def wJan : TS := some ⟨2024, 1, 10, 12, 30, 0⟩

/-- Sample well-formed December-2023 submission time. -/
def wDec : TS := some ⟨2023, 12, 20, 9, 0, 0⟩

/-- Sample 9-column results row with links in columns 2 and 8. -/
def wRow (sid pid title lang : String) (t : TS) : Row :=
  [⟨sid, none⟩, ⟨"user", none⟩, ⟨pid, some ⟨title, none⟩⟩, ⟨"ok", none⟩,
   ⟨"0", none⟩, ⟨"0", none⟩, ⟨lang, none⟩, ⟨"0", none⟩, ⟨"ago", some ⟨"raw", t⟩⟩]

/-- Sample rows for the loop witnesses. -/
def wRow1 : Row := wRow "101" "1000" "A+B" "Python 3" wJan

/-- Second sample accepted row. -/
def wRow2 : Row := wRow "102" "1001" "A-B" "Python 3" wJan

/-- Sample row that triggers the early stop under the 202401 month filter. -/
def wStopRow : Row := wRow "99" "999" "Old" "C99" wDec

/-- Sample row after the stop row. -/
def wRow3 : Row := wRow "98" "998" "Older" "C99" wDec

/-- C1 witness at concrete inputs: one clean earlier page, then a page whose
second body row is before the January-2024 filter; the crawl returns page 1's
record plus the accepted prefix of page 2 and fetches exactly 2 pages,
ignoring the trailing page outcome. -/
theorem early_stop_invariant_witness :
    (∀ t ∈ [[wHeader, wRow1]], ∀ r ∈ t.drop 1,
      (monthOnlyCrawler 202401).rowStep r ≠ .stop) ∧
    ([wHeader, wRow2, wStopRow, wRow3].drop 1 = [wRow2] ++ wStopRow :: [wRow3]) ∧
    (∀ r ∈ [wRow2], (monthOnlyCrawler 202401).rowStep r ≠ .stop) ∧
    ((monthOnlyCrawler 202401).rowStep wStopRow = .stop) ∧
    (monthOnlyCrawler 202401).get_solved_problems
        ([[wHeader, wRow1]].map (fun t => .page (some t) true) ++
          .page (some [wHeader, wRow2, wStopRow, wRow3]) true :: [.fetchErr])
      = (([[wHeader, wRow1]].map
            (fun t => (monthOnlyCrawler 202401).acceptedRows (t.drop 1))).flatten ++
          (monthOnlyCrawler 202401).acceptedRows [wRow2],
        [[wHeader, wRow1]].length + 1) :=
  ⟨by decide, rfl, by decide, by decide,
    early_stop_invariant (monthOnlyCrawler 202401) [[wHeader, wRow1]]
      [wHeader, wRow2, wStopRow, wRow3] [wRow2] [wRow3] wStopRow true [.fetchErr]
      (by decide) rfl (by decide) (by decide)⟩

/-- C7 witness at concrete inputs: one clean page, then a fetch error; the
crawl returns page 1's records and fetches exactly 2 pages. -/
theorem crawl_error_containment_witness :
    (∀ t ∈ [[wHeader, wRow1]], ∀ r ∈ t.drop 1,
      (monthOnlyCrawler 202401).rowStep r ≠ .stop) ∧
    (PageResult.fetchErr = PageResult.fetchErr ∨
      ∃ hn, PageResult.fetchErr = PageResult.page none hn) ∧
    (monthOnlyCrawler 202401).get_solved_problems
        ([[wHeader, wRow1]].map (fun t => .page (some t) true) ++
          PageResult.fetchErr :: [])
      = (([[wHeader, wRow1]].map
            (fun t => (monthOnlyCrawler 202401).acceptedRows (t.drop 1))).flatten,
        [[wHeader, wRow1]].length + 1) :=
  ⟨by decide, Or.inl rfl,
    crawl_error_containment (monthOnlyCrawler 202401) [[wHeader, wRow1]]
      PageResult.fetchErr [] (by decide) (Or.inl rfl)⟩

/-- C6 witness at concrete inputs: the unfiltered crawler on a one-page
fetch. -/
theorem row_extraction_witness :
    noFilterCrawler.unfiltered ∧
    (noFilterCrawler.get_solved_problems [.page (some [wHeader, wRow1]) false]
        = (([wHeader, wRow1].drop 1).filterMap extractRow, 1)
    ∧ (∀ row : Row, row.length < 6 → extractRow row = none)
    ∧ (∀ (row : Row) (c0 c2 c6c c8 : Cell) (l2 l8 : CellLink),
        6 ≤ row.length →
        row[0]? = some c0 → row[2]? = some c2 → row[6]? = some c6c →
        row[8]? = some c8 → c2.link = some l2 → c8.link = some l8 →
        extractRow row = some ⟨c0.text, c2.text, l2.title, c6c.text, l8.ts⟩)) :=
  ⟨by decide, row_extraction noFilterCrawler (by decide) [wHeader, wRow1] false⟩

/-- Outcome of one `requests.get` call: an HTTP response with a status code
(`raise_for_status` raises for codes `>= 400`), or a `RequestException`
carrying no response (network failure). -/
inductive ReqOutcome where
  | status (code : Nat)
  | netErr
deriving Repr, DecidableEq

/-- Observable events of `_make_request_with_retry`: the `attempt`-th GET,
and a `time.sleep` of the given number of seconds. -/
inductive ReqEvent where
  | get (attempt : Nat)
  | sleep (seconds : Nat)
deriving Repr, DecidableEq

/-- `self.max_retries` (crawler constructor). -/
def max_retries : Nat := 3

/-- `self.retry_delay` in seconds (crawler constructor). -/
def retry_delay : Nat := 2

/-- The attempt loop of `_make_request_with_retry`, at attempt index
`attempt` with `remaining` retries left (`remaining = max_retries - attempt`
at entry): a 403 response sleeps `retry_delay` and retries while retries
remain and fails on the last attempt; any other error status (`>= 400`) or a
network failure fails immediately; a non-error response succeeds.  Returns
the event trace and whether the call succeeded (`false` = the exception
propagates to the caller). -/
def retryAux (responses : Nat → ReqOutcome) : Nat → Nat → List ReqEvent × Bool
  | attempt, remaining =>
    match responses attempt with
    | .netErr => ([.get attempt], false)
    | .status code =>
      if code == 403 then
        match remaining with
        | 0 => ([.get attempt], false)
        | r + 1 =>
          let t := retryAux responses (attempt + 1) r
          (.get attempt :: .sleep retry_delay :: t.1, t.2)
      else if 400 ≤ code then ([.get attempt], false)
      else ([.get attempt], true)

/-- `BOJCrawler._make_request_with_retry` for one URL, abstracted over the
outcome `responses i` of the `i`-th GET to that URL. -/
def make_request_with_retry (responses : Nat → ReqOutcome) : List ReqEvent × Bool :=
  retryAux responses 0 max_retries

/-- C5. Retry policy: if every GET returns 403 the call performs exactly 4
attempts (1 initial + 3 retries) with a 2-second sleep between consecutive
attempts and then fails; and whenever, after any run of 403s within the
retry budget, a GET returns a non-403 error status or a network failure,
the call fails immediately on that attempt with no further attempt and no
further sleep. -/
theorem retry_policy (responses : Nat → ReqOutcome) :
    ((∀ i, i ≤ max_retries → responses i = .status 403) →
      make_request_with_retry responses =
        ([.get 0, .sleep 2, .get 1, .sleep 2, .get 2, .sleep 2, .get 3], false))
    ∧ (∀ j c, j ≤ max_retries → (∀ i, i < j → responses i = .status 403) →
        responses j = .status c → 400 ≤ c → c ≠ 403 →
        make_request_with_retry responses =
          ((List.range j).flatMap (fun i => [.get i, .sleep 2]) ++ [.get j], false))
    ∧ (∀ j, j ≤ max_retries → (∀ i, i < j → responses i = .status 403) →
        responses j = .netErr →
        make_request_with_retry responses =
          ((List.range j).flatMap (fun i => [.get i, .sleep 2]) ++ [.get j], false)) := by
  refine ⟨?_, ?_, ?_⟩
  · intro h
    simp [make_request_with_retry, max_retries, retry_delay, retryAux,
      h 0 (by decide), h 1 (by decide), h 2 (by decide), h 3 (by decide)]
  · intro j c hj hpre hj403 hc400 hcne
    have hcb : (c == 403) = false := by simp [hcne]
    have hj' : j ≤ 3 := hj
    interval_cases j <;>
      simp [make_request_with_retry, max_retries, retry_delay, retryAux,
        hj403, hcb, hc400, List.range_succ, hpre 0, hpre 1, hpre 2]
  · intro j hj hpre hjnet
    have hj' : j ≤ 3 := hj
    interval_cases j <;>
      simp [make_request_with_retry, max_retries, retry_delay, retryAux,
        hjnet, List.range_succ, hpre 0, hpre 1, hpre 2]

/-- C5 witness at concrete inputs: a fetcher that always returns 403. -/
theorem retry_policy_witness :
    (∀ i, i ≤ max_retries → (fun _ : Nat => ReqOutcome.status 403) i = .status 403) ∧
    make_request_with_retry (fun _ => ReqOutcome.status 403) =
      ([.get 0, .sleep 2, .get 1, .sleep 2, .get 2, .sleep 2, .get 3], false) :=
  ⟨fun _ _ => rfl, (retry_policy (fun _ => ReqOutcome.status 403)).1 (fun _ _ => rfl)⟩

/-- Per-user counts for one month, as an insertion-ordered dict
(`monthly_stats[month]`). -/
abbrev UserStats := List (String × Nat)

/-- Month key → per-user counts, as an insertion-ordered dict
(`monthly_stats`, keys are the numeric form of `"%Y-%m"`). -/
abbrev MonthlyStats := List (Nat × UserStats)

/-- Dict read `us.get(u, 0)` (also the `defaultdict(int)` read). -/
def getCount (us : UserStats) (u : String) : Nat :=
  (us.lookup u).getD 0

/-- Dict read `monthly_stats.get(m, {})` (also the `defaultdict` read). -/
def getMonth (stats : MonthlyStats) (m : Nat) : UserStats :=
  (stats.lookup m).getD []

/-- Dict write `us[u] = n`: overwrite in place, or append a new key. -/
def setUser (us : UserStats) (u : String) (n : Nat) : UserStats :=
  match us with
  | [] => [(u, n)]
  | (v, k) :: rest =>
    if v == u then (v, n) :: rest else (v, k) :: setUser rest u n

/-- Nested dict write `stats[m][u] = n` with `defaultdict` creation of the
month entry. -/
def setCount (stats : MonthlyStats) (m : Nat) (u : String) (n : Nat) : MonthlyStats :=
  match stats with
  | [] => [(m, [(u, n)])]
  | (m', us) :: rest =>
    if m' == m then (m', setUser us u n) :: rest
    else (m', us) :: setCount rest m u n

/-- `generate_monthly_report` (batch.py): per-month counts of one user's
problems; a problem whose `submission_time` does not parse is logged and
skipped. -/
def generate_monthly_report (problems : List Problem) (username : String) : MonthlyStats :=
  problems.foldl (fun stats p =>
    match p.submission_time with
    | none => stats
    | some dt =>
      setCount stats dt.yyyymm username
        (getCount (getMonth stats dt.yyyymm) username + 1)) []

/-- One month's entry of the generated report. -/
structure MonthReport where
  total_solved : Nat
  users : List (String × Nat)
deriving Repr, DecidableEq

/-- The report object `save_monthly_report` builds (the `generated_at`
wall-clock field is omitted). -/
structure Report where
  monthly_stats : List (Nat × MonthReport)
  total_users : Nat
  total_months : Nat
deriving Repr, DecidableEq

/-- `save_monthly_report` (batch.py): months sorted descending
(`sorted(keys, reverse=True)`, stable), each month carrying the sum of its
recorded counts and, for every username of the batch list, that user's count
with default 0, stably sorted descending by count (Python `sorted` with
`reverse=True` keeps ties in original order, as `mergeSort` does). -/
def save_monthly_report (monthly_stats : MonthlyStats) (all_usernames : List String) : Report :=
  let sorted_months := (monthly_stats.map Prod.fst).mergeSort (fun a b => decide (b ≤ a))
  { monthly_stats := sorted_months.map (fun month =>
      (month,
        { total_solved := ((getMonth monthly_stats month).map Prod.snd).sum
          users := (all_usernames.map
              (fun u => (u, getCount (getMonth monthly_stats month) u))).mergeSort
                (fun a b => decide (b.2 ≤ a.2)) })),
    total_users := all_usernames.length,
    total_months := monthly_stats.length }

/-- Merging one user's monthly stats into the combined stats
(`combined_monthly_stats[month][user] = count`). -/
def mergeMonthly (acc : MonthlyStats) (userStats : MonthlyStats) : MonthlyStats :=
  userStats.foldl (fun a mu =>
    mu.2.foldl (fun a2 un => setCount a2 mu.1 un.1 un.2) a) acc

/-- The loop body of `batch_crawl` for one username, with the per-user crawl
(constructor, `get_solved_problems`, `save_to_json`) abstracted as a fallible
call: an exception is caught, logged, and the combined stats are left
untouched; otherwise a nonempty result is aggregated (report generation
enabled). -/
def batch_crawl_step (crawl : String → Except Unit (List Problem))
    (stats : MonthlyStats) (username : String) : MonthlyStats :=
  match crawl username with
  | .error _ => stats
  | .ok problems =>
    if problems.isEmpty then stats
    else mergeMonthly stats (generate_monthly_report problems username)

/-- `batch_crawl` (batch.py) with report generation: the combined monthly
stats after visiting every username in order, and the final report built
from them over the full username list. -/
def batch_crawl (crawl : String → Except Unit (List Problem))
    (usernames : List String) : MonthlyStats × Report :=
  let combined := usernames.foldl (batch_crawl_step crawl) []
  (combined, save_monthly_report combined usernames)

/-- C8. Batch continuation: a username whose per-user crawl raises
contributes nothing and stops nothing — the combined stats equal those of
the batch without that user, and the final report is still generated over
the full username list from those stats, so every other user's results
(before and after the failure) enter it. -/
theorem batch_continuation (crawl : String → Except Unit (List Problem))
    (pre post : List String) (u : String) (hu : crawl u = .error ()) :
    (batch_crawl crawl (pre ++ u :: post)).1 = (batch_crawl crawl (pre ++ post)).1
    ∧ (batch_crawl crawl (pre ++ u :: post)).2 =
        save_monthly_report (batch_crawl crawl (pre ++ post)).1 (pre ++ u :: post) := by
  have key : (pre ++ u :: post).foldl (batch_crawl_step crawl) []
      = (pre ++ post).foldl (batch_crawl_step crawl) [] := by
    simp [List.foldl_append, List.foldl_cons, batch_crawl_step, hu]
  exact ⟨by simp [batch_crawl, key], by simp [batch_crawl, key]⟩

/-- Concrete fallible per-user crawl for the C8 witness: `bob` raises,
everyone else returns one solved problem. -/
def wCrawl : String → Except Unit (List Problem) := fun s =>
  if s == "bob" then .error ()
  else .ok [⟨"101", "1000", "A+B", "Python 3", wJan⟩]

/-- C8 witness at concrete inputs: `bob` fails between `alice` and `carol`. -/
theorem batch_continuation_witness :
    wCrawl "bob" = .error () ∧
    ((batch_crawl wCrawl (["alice"] ++ "bob" :: ["carol"])).1 =
        (batch_crawl wCrawl (["alice"] ++ ["carol"])).1
    ∧ (batch_crawl wCrawl (["alice"] ++ "bob" :: ["carol"])).2 =
        save_monthly_report (batch_crawl wCrawl (["alice"] ++ ["carol"])).1
          (["alice"] ++ "bob" :: ["carol"])) :=
  ⟨rfl, batch_continuation wCrawl ["alice"] ["carol"] "bob" rfl⟩

/-- C9. Report finalization: the generated report lists the stats' months in
descending order; each listed month's user breakdown is a permutation of the
full username list (so, the list being duplicate-free, every username appears
exactly once), ordered descending by count, where each user carries their
recorded count for that month with default 0; each month's `total_solved` is
the sum of that month's recorded counts; `total_users` is the length of the
username list and `total_months` the number of months in the stats map. -/
theorem report_finalization (stats : MonthlyStats) (usernames : List String)
    (_hkeys : (stats.map Prod.fst).Nodup) (_husers : usernames.Nodup) :
    ((save_monthly_report stats usernames).monthly_stats.map Prod.fst).Pairwise
        (fun a b => b ≤ a)
    ∧ ((save_monthly_report stats usernames).monthly_stats.map Prod.fst).Perm
        (stats.map Prod.fst)
    ∧ (∀ p ∈ (save_monthly_report stats usernames).monthly_stats,
        (p.2.users.map Prod.fst).Perm usernames
        ∧ p.2.users.Pairwise (fun a b => b.2 ≤ a.2)
        ∧ (∀ q ∈ p.2.users, q.2 = getCount (getMonth stats p.1) q.1)
        ∧ p.2.total_solved = ((getMonth stats p.1).map Prod.snd).sum)
    ∧ (save_monthly_report stats usernames).total_users = usernames.length
    ∧ (save_monthly_report stats usernames).total_months = stats.length := by
  have hmap : (save_monthly_report stats usernames).monthly_stats.map Prod.fst
      = (stats.map Prod.fst).mergeSort (fun a b => decide (b ≤ a)) := by
    simp only [save_monthly_report, List.map_map]
    exact List.map_id _
  refine ⟨?_, ?_, ?_, rfl, rfl⟩
  · rw [hmap]
    have hsort : List.Pairwise (fun a b : Nat => decide (b ≤ a) = true)
        ((stats.map Prod.fst).mergeSort (fun a b => decide (b ≤ a))) :=
      List.sorted_mergeSort
        (fun a b c h1 h2 => by simp at h1 h2 ⊢; omega)
        (fun a b => by simp [Bool.or_eq_true]; omega)
        (stats.map Prod.fst)
    exact hsort.imp (fun h => by simpa using h)
  · rw [hmap]
    exact List.mergeSort_perm _ _
  · intro p hp
    simp only [save_monthly_report, List.mem_map] at hp
    obtain ⟨month, hmem, rfl⟩ := hp
    refine ⟨?_, ?_, ?_, rfl⟩
    · have hperm := List.mergeSort_perm
        (usernames.map (fun u => (u, getCount (getMonth stats month) u)))
        (fun a b => decide (b.2 ≤ a.2))
      have h2 := hperm.map Prod.fst
      rw [List.map_map] at h2
      have h3 : usernames.map
          (Prod.fst ∘ fun u => (u, getCount (getMonth stats month) u))
          = usernames := List.map_id _
      rwa [h3] at h2
    · have hsort : List.Pairwise
          (fun a b : String × Nat => decide (b.2 ≤ a.2) = true)
          ((usernames.map
              (fun u => (u, getCount (getMonth stats month) u))).mergeSort
            (fun a b => decide (b.2 ≤ a.2))) :=
        List.sorted_mergeSort
          (fun a b c h1 h2 => by simp at h1 h2 ⊢; omega)
          (fun a b => by simp [Bool.or_eq_true]; omega)
          (usernames.map (fun u => (u, getCount (getMonth stats month) u)))
      exact hsort.imp (fun h => by simpa using h)
    · intro q hq
      rw [List.mem_mergeSort] at hq
      obtain ⟨u, hu, rfl⟩ := List.mem_map.mp hq
      rfl

/-- Concrete stats for the C9 witness: one month where only `alice` solved. -/
def wStats : MonthlyStats := [(202401, [("alice", 2)])]

/-- Concrete username list for the C9 witness. -/
def wUsers : List String := ["alice", "bob"]

/-- C9 witness at concrete inputs: finalizing a month where only `alice` has
records over the batch list `["alice", "bob"]`. -/
theorem report_finalization_witness :
    (wStats.map Prod.fst).Nodup ∧ wUsers.Nodup ∧
    (((save_monthly_report wStats wUsers).monthly_stats.map Prod.fst).Pairwise
        (fun a b => b ≤ a)
    ∧ ((save_monthly_report wStats wUsers).monthly_stats.map Prod.fst).Perm
        (wStats.map Prod.fst)
    ∧ (∀ p ∈ (save_monthly_report wStats wUsers).monthly_stats,
        (p.2.users.map Prod.fst).Perm wUsers
        ∧ p.2.users.Pairwise (fun a b => b.2 ≤ a.2)
        ∧ (∀ q ∈ p.2.users, q.2 = getCount (getMonth wStats p.1) q.1)
        ∧ p.2.total_solved = ((getMonth wStats p.1).map Prod.snd).sum)
    ∧ (save_monthly_report wStats wUsers).total_users = wUsers.length
    ∧ (save_monthly_report wStats wUsers).total_months = wStats.length) :=
  ⟨by decide, by decide, report_finalization wStats wUsers (by decide) (by decide)⟩
